import Mathlib

set_option maxHeartbeats 1000000
set_option maxRecDepth 8192

/-!
Verification of the user-manager data-access layer
(`src/services/db_services.py`) against its specification.

The store is modelled as a list of rows of the `user` table, in insertion
order; each SQL statement issued by the source is embedded as the
corresponding pure list transformation, and each repository operation as a
pure function on the store.  The connection/lock discipline of each
operation is modelled separately as a trace of events, and the
process-wide lock as a small-step interleaving semantics.
-/

namespace UserManager

/-- Modelled from the spec: the privileged user model (`UserDB` in
`models/user_db.py`, a file absent from the repository snapshot).  The spec's
UserRecord has fields `full_name, username, email, secret` in this order,
matching the INSERT column order `(full_name, username, email,
hashed_password)`; the secret field is called `password` in
`db_services.py` (`updated_user.password`, `user_data["password"]`). -/
structure UserDB where
  full_name : String
  username : String
  email : String
  password : String
deriving DecidableEq, Repr

/-- Modelled from the spec: the public user model (`User` in
`models/user_db.py`): the projection `full_name, username, email` without
the secret. -/
structure User where
  full_name : String
  username : String
  email : String
deriving DecidableEq, Repr

/-- One row of the `user` table, columns
`(full_name, username, email, hashed_password)`. -/
structure Row where
  full_name : String
  username : String
  email : String
  hashed_password : String
deriving DecidableEq, Repr

/-- The table `user`: rows in insertion order. -/
abbrev Store := List Row

/-- `SELECT ... FROM user WHERE username = ?`: rows matching a username,
in store order. -/
def selectByUsername (db : Store) (username : String) : List Row :=
  db.filter (fun r => r.username == username)

/-- `SELECT * FROM user WHERE username = ? OR email = ?`. -/
def selectByUsernameOrEmail (db : Store) (username email : String) : List Row :=
  db.filter (fun r => r.username == username || r.email == email)

/-- `add_user`: `INSERT INTO user(full_name, username, email,
hashed_password) VALUES (?, ?, ?, ?)` with the values of the `UserDB`
model in field order. -/
def add_user (db : Store) (user : UserDB) : Store :=
  db ++ [⟨user.full_name, user.username, user.email, user.password⟩]

/-- `get_user`: selects the rows matching `username`, takes
`rows[0] if len(rows) == 1 else None`, and when a row was selected returns
a `UserDB` (privileged, with the hashed password) if `hidden_password`
else a `User` (public). -/
def get_user (db : Store) (username : String) (hidden_password : Bool) :
    Option (User ⊕ UserDB) :=
  let rows := selectByUsername db username
  let row? := if rows.length = 1 then rows.head? else none
  match row? with
  | some row =>
      if hidden_password then
        some (Sum.inr ⟨row.full_name, row.username, row.email, row.hashed_password⟩)
      else
        some (Sum.inl ⟨row.full_name, row.username, row.email⟩)
  | none => none

/-- `delete_user`: `DELETE FROM user WHERE username = ?`. -/
def delete_user (db : Store) (username : String) : Store :=
  db.filter (fun r => !(r.username == username))

/-- `update_user`: `UPDATE user SET full_name = ?, username = ?, email = ?,
hashed_password = ? WHERE username = ?` — every row whose username matches
is replaced by the four fields of `updated_user`. -/
def update_user (db : Store) (username : String) (updated_user : UserDB) : Store :=
  db.map (fun r =>
    if r.username == username then
      ⟨updated_user.full_name, updated_user.username, updated_user.email,
        updated_user.password⟩
    else r)

/-- `exists_username`: `len(result.rows) != 0` over
`SELECT * FROM user WHERE username = ?`. -/
def exists_username (db : Store) (username : String) : Bool :=
  (selectByUsername db username).length != 0

/-- `is_unique`: over `SELECT * FROM user WHERE username = ? OR email = ?`,
returns `len(rows) == 0` when `for_update_user` is false and
`len(rows) == 1` when it is true. -/
def is_unique (db : Store) (user : User) (for_update_user : Bool) : Bool :=
  let rows := selectByUsernameOrEmail db user.username user.email
  if !for_update_user then rows.length == 0 else rows.length == 1

example : get_user [⟨"Ana Gomez", "ana", "ana@x.com", "h1"⟩] "ana" false =
    some (Sum.inl ⟨"Ana Gomez", "ana", "ana@x.com"⟩) := by decide

example : get_user [⟨"Ana Gomez", "ana", "ana@x.com", "h1"⟩] "ana" true =
    some (Sum.inr ⟨"Ana Gomez", "ana", "ana@x.com", "h1"⟩) := by decide

example :
    get_user [⟨"A", "ana", "a@x", "h1"⟩, ⟨"B", "ana", "b@x", "h2"⟩] "ana" false =
      none := by decide

example : exists_username [⟨"A", "ana", "a@x", "h1"⟩] "bob" = false := by decide

example : is_unique [⟨"A", "ana", "a@x", "h1"⟩] ⟨"C", "ana", "c@x"⟩ false = false := by
  decide

example : is_unique [⟨"A", "ana", "a@x", "h1"⟩] ⟨"A", "ana", "a@x"⟩ true = true := by
  decide

/-! ## Connection / lock discipline of a single operation

Each operation's control flow around its store call is a straight-line
sequence of events: acquiring the process-wide lock `look`, issuing the
query, releasing the lock (leaving the `async with look` block, also
during exception unwind), closing the client (the `finally` block), and —
when the store call raised — re-raising the failure to the caller.  The
parameter `ok` distinguishes the success path from the path where the
store call raises. -/

inductive Event
  | acquire
  | query
  | release
  | close
  | raiseErr
deriving DecidableEq, Repr, BEq

/-- `add_user`: `try: async with look: execute ... finally: await
client.close()` — the lock is scoped inside the `try`, the close runs in
the `finally` after the lock scope has been left. -/
def add_user_trace (ok : Bool) : List Event :=
  [.acquire, .query, .release, .close] ++ (if ok then [] else [.raiseErr])

/-- `get_user`: same `try: async with look: ... finally: close` shape. -/
def get_user_trace (ok : Bool) : List Event :=
  [.acquire, .query, .release, .close] ++ (if ok then [] else [.raiseErr])

/-- `delete_user`: same `try: async with look: ... finally: close` shape. -/
def delete_user_trace (ok : Bool) : List Event :=
  [.acquire, .query, .release, .close] ++ (if ok then [] else [.raiseErr])

/-- `update_user`: same `try: async with look: ... finally: close` shape. -/
def update_user_trace (ok : Bool) : List Event :=
  [.acquire, .query, .release, .close] ++ (if ok then [] else [.raiseErr])

/-- `exists_username`: same `try: async with look: ... finally: close`
shape. -/
def exists_username_trace (ok : Bool) : List Event :=
  [.acquire, .query, .release, .close] ++ (if ok then [] else [.raiseErr])

/-- `is_unique`: `async with look: try: execute ... finally: await
client.close()` — here the `try`/`finally` is nested inside the lock
scope, so the close runs while the lock is still held and the lock is
released afterwards. -/
def is_unique_trace (ok : Bool) : List Event :=
  [.acquire, .query, .close, .release] ++ (if ok then [] else [.raiseErr])

/-- Index of the first occurrence of an event in a trace (length if
absent). -/
def eventPos : List Event → Event → Nat
  | [], _ => 0
  | e :: es, x => if e = x then 0 else eventPos es x + 1

/-- The gate is acquired before any query is issued. -/
def acquireBeforeQuery (t : List Event) : Bool :=
  t.contains .acquire && t.contains .query &&
    decide (eventPos t .acquire < eventPos t .query)

/-- The gate is held until the connection has been closed: the release
event comes only after the close event. -/
def heldThroughClose (t : List Event) : Bool :=
  t.contains .release && t.contains .close &&
    decide (eventPos t .close < eventPos t .release)

/-- The connection is closed exactly once. -/
def closedOnce (t : List Event) : Bool :=
  (t.filter (fun e => e == .close)).length == 1

/-- A store failure, when present, is propagated only after the close
step. -/
def failAfterClose (t : List Event) : Bool :=
  !(t.contains .raiseErr) || decide (eventPos t .close < eventPos t .raiseErr)

example : heldThroughClose (is_unique_trace true) = true := by decide
example : heldThroughClose (add_user_trace true) = false := by decide

/-- Claim C1, counterexample: `add_user` (on its success path, and likewise
on its failure path) releases the concurrency gate *before* the close
step, because its `async with look` block is nested inside the `try`
whose `finally` closes the client; so it is false that every operation
holds the gate until the connection has been closed. -/
theorem c1_counterexample :
    heldThroughClose (add_user_trace true) = false ∧
    heldThroughClose (add_user_trace false) = false ∧
    acquireBeforeQuery (add_user_trace true) = true := by
  decide

/-- Claim C1 (amended): every operation acquires the gate before issuing
any query; `is_unique` holds the gate until the connection has been
closed, but the other five operations (`add_user`, `get_user`,
`delete_user`, `update_user`, `exists_username`) release the gate before
the close step, on both success and failure paths. -/
theorem c1_gate_discipline :
    ∀ ok : Bool,
      acquireBeforeQuery (add_user_trace ok) = true ∧
      acquireBeforeQuery (get_user_trace ok) = true ∧
      acquireBeforeQuery (delete_user_trace ok) = true ∧
      acquireBeforeQuery (update_user_trace ok) = true ∧
      acquireBeforeQuery (exists_username_trace ok) = true ∧
      acquireBeforeQuery (is_unique_trace ok) = true ∧
      heldThroughClose (is_unique_trace ok) = true ∧
      heldThroughClose (add_user_trace ok) = false ∧
      heldThroughClose (get_user_trace ok) = false ∧
      heldThroughClose (delete_user_trace ok) = false ∧
      heldThroughClose (update_user_trace ok) = false ∧
      heldThroughClose (exists_username_trace ok) = false := by
  decide

/-- Claim C2: every operation closes its connection exactly once, on both
the success path and the path where the store call raises, and a store
failure is propagated to the caller only after the close step. -/
theorem c2_close_discipline :
    ∀ ok : Bool,
      (closedOnce (add_user_trace ok) && failAfterClose (add_user_trace ok)) = true ∧
      (closedOnce (get_user_trace ok) && failAfterClose (get_user_trace ok)) = true ∧
      (closedOnce (delete_user_trace ok) && failAfterClose (delete_user_trace ok)) = true ∧
      (closedOnce (update_user_trace ok) && failAfterClose (update_user_trace ok)) = true ∧
      (closedOnce (exists_username_trace ok) && failAfterClose (exists_username_trace ok)) = true ∧
      (closedOnce (is_unique_trace ok) && failAfterClose (is_unique_trace ok)) = true := by
  decide

/-! ## Functional behaviour of the operations -/

/-- Claim C3: `get_user` returns `none` (absent) when no row matches the
username, and when exactly one row matches it returns the privileged view
(a `UserDB` including the hashed password) when `hidden_password` is
true and the public view (a `User` without it) when it is false, both
built from the matching row. -/
theorem c3_get_user_views (db : Store) (username : String) (reveal : Bool) :
    (selectByUsername db username = [] → get_user db username reveal = none) ∧
    (∀ row, selectByUsername db username = [row] →
      get_user db username true =
        some (Sum.inr ⟨row.full_name, row.username, row.email, row.hashed_password⟩) ∧
      get_user db username false =
        some (Sum.inl ⟨row.full_name, row.username, row.email⟩)) := by
  constructor
  · intro h
    simp [get_user, h]
  · intro row h
    constructor <;> simp [get_user, h]

/-- Witness for C3 on a one-row store. -/
theorem c3_witness :
    get_user [⟨"Ana Gomez", "ana", "ana@x.com", "h1"⟩] "ana" false =
        some (Sum.inl ⟨"Ana Gomez", "ana", "ana@x.com"⟩) ∧
    get_user [⟨"Ana Gomez", "ana", "ana@x.com", "h1"⟩] "ana" true =
        some (Sum.inr ⟨"Ana Gomez", "ana", "ana@x.com", "h1"⟩) := by
  have h := (c3_get_user_views [⟨"Ana Gomez", "ana", "ana@x.com", "h1"⟩] "ana" false).2
    ⟨"Ana Gomez", "ana", "ana@x.com", "h1"⟩ (by decide)
  exact ⟨h.2, h.1⟩

/-- Claim C10: whenever the number of rows matching the username is not
exactly one — in particular when two or more rows match — `get_user`
returns `none`, regardless of the `hidden_password` flag. -/
theorem c10_not_single_absent (db : Store) (username : String) (reveal : Bool)
    (h : (selectByUsername db username).length ≠ 1) :
    get_user db username reveal = none := by
  simp [get_user, h]

/-- Witness for C10: a store holding two rows with the same username. -/
theorem c10_witness :
    get_user [⟨"A", "ana", "a@x", "h1"⟩, ⟨"B", "ana", "b@x", "h2"⟩] "ana" true =
      none :=
  c10_not_single_absent [⟨"A", "ana", "a@x", "h1"⟩, ⟨"B", "ana", "b@x", "h2"⟩]
    "ana" true (by decide)

/-- Claim C4, counterexample: on a store where two rows match the username
`"ana"`, `get_user` returns `none` — it does *not* select the first
matching row and build a view from it, contrary to the claim (the source
computes `rows[0] if len(rows) == 1 else None`, so more than one match
yields `None`). -/
theorem c4_counterexample :
    (selectByUsername [⟨"A", "ana", "a@x", "h1"⟩, ⟨"B", "ana", "b@x", "h2"⟩]
        "ana").length = 2 ∧
    get_user [⟨"A", "ana", "a@x", "h1"⟩, ⟨"B", "ana", "b@x", "h2"⟩] "ana" false =
        none ∧
    get_user [⟨"A", "ana", "a@x", "h1"⟩, ⟨"B", "ana", "b@x", "h2"⟩] "ana" false ≠
        some (Sum.inl ⟨"A", "ana", "a@x"⟩) := by
  refine ⟨by decide, by decide, by decide⟩

/-- Claim C4 (amended): for every store state in which more than one row
matches the username, `get_user` silently returns `none` (absent) — it
neither selects the first matching row nor signals an inconsistency. -/
theorem c4_multirow_absent (db : Store) (username : String) (reveal : Bool)
    (h : 2 ≤ (selectByUsername db username).length) :
    get_user db username reveal = none := by
  have hne : (selectByUsername db username).length ≠ 1 := by omega
  simp [get_user, hne]

/-- Witness for the amended C4. -/
theorem c4_witness :
    get_user [⟨"A", "ana", "a@x", "h1"⟩, ⟨"B", "ana", "b@x", "h2"⟩] "ana" false =
      none :=
  c4_multirow_absent [⟨"A", "ana", "a@x", "h1"⟩, ⟨"B", "ana", "b@x", "h2"⟩]
    "ana" false (by decide)

/-- Claim C5: `is_unique` with `for_update_user = false` is true iff zero
stored rows match the candidate's username or email, and with
`for_update_user = true` it is true iff exactly one stored row matches
(zero or more than one both yield false). -/
theorem c5_is_unique_counts (db : Store) (cand : User) :
    (is_unique db cand false = true ↔
      (selectByUsernameOrEmail db cand.username cand.email).length = 0) ∧
    (is_unique db cand true = true ↔
      (selectByUsernameOrEmail db cand.username cand.email).length = 1) := by
  constructor <;> simp [is_unique]

/-- Claim C6: creating a user whose username is not already stored and then
reading that username returns the public view of the record (without the
secret) when the password is hidden from the result, and the privileged
view carrying the record's secret when it is revealed. -/
theorem c6_create_then_read (db : Store) (r : UserDB)
    (h : exists_username db r.username = false) :
    get_user (add_user db r) r.username false =
      some (Sum.inl ⟨r.full_name, r.username, r.email⟩) ∧
    get_user (add_user db r) r.username true = some (Sum.inr r) := by
  have hlen : (selectByUsername db r.username).length = 0 := by
    simpa [exists_username] using h
  have hnil : selectByUsername db r.username = [] := List.length_eq_zero.mp hlen
  have hsel : selectByUsername (add_user db r) r.username =
      [⟨r.full_name, r.username, r.email, r.password⟩] := by
    unfold selectByUsername at hnil ⊢
    simp [add_user, List.filter_append, hnil]
  constructor <;> simp [get_user, hsel]

/-- Witness for C6 on the empty store. -/
theorem c6_witness :
    get_user (add_user [] ⟨"Ana Gomez", "ana", "ana@x.com", "h1"⟩) "ana" true =
      some (Sum.inr ⟨"Ana Gomez", "ana", "ana@x.com", "h1"⟩) :=
  (c6_create_then_read [] ⟨"Ana Gomez", "ana", "ana@x.com", "h1"⟩ (by decide)).2

/-- Claim C8: after `delete_user db u`, no row with username `u` remains,
so `exists_username` returns false — for a previously present `u` as well
as for one never present — and deleting a username with no matching rows
leaves the store unchanged (a no-op, not an error). -/
theorem c8_delete_then_absent (db : Store) (u : String) :
    exists_username (delete_user db u) u = false ∧
    (exists_username db u = false → delete_user db u = db) := by
  constructor
  · simp [exists_username, selectByUsername, delete_user, List.filter_filter]
  · intro h
    have hlen : (db.filter (fun r => r.username == u)).length = 0 := by
      simpa [exists_username, selectByUsername] using h
    rw [List.length_eq_zero, List.filter_eq_nil_iff] at hlen
    unfold delete_user
    rw [List.filter_eq_self]
    intro a ha
    simp [hlen a ha]

/-- Witness for C8: a one-row store, and the no-op case on the empty
store. -/
theorem c8_witness :
    exists_username (delete_user [⟨"Ana", "ana", "a@x", "h1"⟩] "ana") "ana" =
        false ∧
    delete_user [] "bob" = [] :=
  ⟨(c8_delete_then_absent [⟨"Ana", "ana", "a@x", "h1"⟩] "ana").1,
    (c8_delete_then_absent [] "bob").2 (by decide)⟩

/-- After updating the unique row with username `u` by `r'`, in a store
where no other row carries username `r'.username`, the rows matching
`r'.username` are exactly the replaced row. -/
lemma filter_update_aux (db : List Row) (u : String) (r' : UserDB)
    (h1 : (db.filter (fun r => r.username == u)).length = 1)
    (h2 : ∀ row ∈ db, row.username ≠ u → row.username ≠ r'.username) :
    (db.map (fun r =>
      if r.username == u then
        (⟨r'.full_name, r'.username, r'.email, r'.password⟩ : Row)
      else r)).filter (fun r => r.username == r'.username) =
      [⟨r'.full_name, r'.username, r'.email, r'.password⟩] := by
  induction db with
  | nil => simp at h1
  | cons a as ih =>
    by_cases hau : a.username = u
    · have has : ∀ row ∈ as, ¬(row.username = u) := by
        simpa [List.filter_cons, hau] using h1
      have hnil : ∀ row ∈ as,
          ¬(if row.username = u then
              (⟨r'.full_name, r'.username, r'.email, r'.password⟩ : Row)
            else row).username = r'.username := by
        intro row hrow
        have hru := has row hrow
        simpa [hru] using h2 row (List.mem_cons_of_mem a hrow) hru
      simp [List.filter_cons, hau]
      exact hnil
    · have har : a.username ≠ r'.username := h2 a (List.mem_cons_self a as) hau
      have h1' : (as.filter (fun r => r.username == u)).length = 1 := by
        simpa [List.filter_cons, hau] using h1
      have h2' : ∀ row ∈ as, row.username ≠ u → row.username ≠ r'.username :=
        fun row hrow hru => h2 row (List.mem_cons_of_mem a hrow) hru
      have hih := ih h1' h2'
      simp [List.filter_cons, hau, har] at hih ⊢
      exact hih

/-- Claim C7 (amended): when exactly one stored row has username `u` and no
other row has username `r'.username`, `update_user db u r'` followed by
`get_user` on `r'.username` returns the view built from `r'` (public or
privileged according to the flag); and when `r'.username ≠ u`,
`exists_username` becomes false for `u` and true for `r'.username` — the
update is a full four-field replacement including renames. -/
theorem c7_update_rename (db : Store) (u : String) (r' : UserDB)
    (h1 : (selectByUsername db u).length = 1)
    (h2 : ∀ row ∈ db, row.username ≠ u → row.username ≠ r'.username) :
    get_user (update_user db u r') r'.username false =
      some (Sum.inl ⟨r'.full_name, r'.username, r'.email⟩) ∧
    get_user (update_user db u r') r'.username true = some (Sum.inr r') ∧
    (r'.username ≠ u → exists_username (update_user db u r') u = false) ∧
    exists_username (update_user db u r') r'.username = true := by
  have hsel : selectByUsername (update_user db u r') r'.username =
      [⟨r'.full_name, r'.username, r'.email, r'.password⟩] := by
    unfold selectByUsername update_user
    exact filter_update_aux db u r' (by simpa [selectByUsername] using h1) h2
  refine ⟨?_, ?_, ?_, ?_⟩
  · simp [get_user, hsel]
  · simp [get_user, hsel]
  · intro hne
    have hall : ∀ row ∈ db,
        ¬(if row.username = u then
            (⟨r'.full_name, r'.username, r'.email, r'.password⟩ : Row)
          else row).username = u := by
      intro row hrow
      by_cases hru : row.username = u
      · simp [hru, hne]
      · simp [hru]
    unfold exists_username selectByUsername update_user
    simp
    exact hall
  · simp [exists_username, hsel]

/-- Witness for the amended C7: the spec's own end-to-end rename scenario
(`"ana"` renamed to `"ana2"`). -/
theorem c7_witness :
    get_user (update_user [⟨"Ana Gomez", "ana", "ana@x.com", "h1"⟩] "ana"
        ⟨"Ana G.", "ana2", "ana@x.com", "h1"⟩) "ana2" false =
      some (Sum.inl ⟨"Ana G.", "ana2", "ana@x.com"⟩) ∧
    exists_username (update_user [⟨"Ana Gomez", "ana", "ana@x.com", "h1"⟩] "ana"
        ⟨"Ana G.", "ana2", "ana@x.com", "h1"⟩) "ana" = false := by
  have h := c7_update_rename [⟨"Ana Gomez", "ana", "ana@x.com", "h1"⟩] "ana"
    ⟨"Ana G.", "ana2", "ana@x.com", "h1"⟩ (by decide) (by decide)
  exact ⟨h.1, h.2.2.1 (by decide)⟩

/-- Claim C7, counterexample: in a store holding the rows `ana` and `ana2`
(distinct usernames, so the store satisfies the uniqueness invariant),
updating `ana` to a replacement whose username is `ana2` produces two rows
named `ana2`, and the subsequent read of `ana2` returns `none` instead of
a view matching the replacement — the claim fails as universally
stated. -/
theorem c7_counterexample :
    (selectByUsername [⟨"Ana", "ana", "a@x", "h1"⟩, ⟨"Bob", "ana2", "b@x", "h2"⟩]
        "ana").length = 1 ∧
    get_user (update_user
        [⟨"Ana", "ana", "a@x", "h1"⟩, ⟨"Bob", "ana2", "b@x", "h2"⟩] "ana"
        ⟨"Ana G.", "ana2", "a@x", "h1"⟩) "ana2" false = none ∧
    get_user (update_user
        [⟨"Ana", "ana", "a@x", "h1"⟩, ⟨"Bob", "ana2", "b@x", "h2"⟩] "ana"
        ⟨"Ana G.", "ana2", "a@x", "h1"⟩) "ana2" true = none := by
  refine ⟨by decide, by decide, by decide⟩

/-! ## Interleaving semantics of two concurrent operations

Two logical callers each run one repository operation concurrently under
the shared lock `look`.  Each operation is the straight-line instruction
sequence of `add_user` (`create`): acquire the lock, start the store call
(the write is sent), finish the store call (the awaited round-trip
returns), release the lock, close the client.  A scheduler interleaves
the two threads one atomic instruction at a time; `acquire` blocks while
the other thread holds the lock. -/

inductive Instr
  | acquire
  | queryStart
  | queryEnd
  | release
  | close
deriving DecidableEq, Repr

/-- The instruction sequence of one `add_user` (`create`) call. -/
def create_prog : List Instr :=
  [.acquire, .queryStart, .queryEnd, .release, .close]

/-- A global state: each thread's program counter (number of completed
instructions of `create_prog`, hence in `Fin 6`) and the holder of the
lock `look` (`none` when free; `false` is thread 1, `true` is thread 2). -/
structure CState where
  pc1 : Fin 6
  pc2 : Fin 6
  lock : Option Bool
deriving DecidableEq, Repr, Fintype

/-- Program counter of a thread. -/
def pcOf (s : CState) (t : Bool) : Fin 6 :=
  if t then s.pc2 else s.pc1

/-- Advance a program counter by one instruction. -/
def bump (p : Fin 6) : Fin 6 :=
  if h : p.val + 1 < 6 then ⟨p.val + 1, h⟩ else p

/-- Set a thread's program counter. -/
def setPc (s : CState) (t : Bool) (p : Fin 6) : CState :=
  if t then { s with pc2 := p } else { s with pc1 := p }

/-- One atomic step of thread `t`, when enabled: `acquire` only succeeds
while the lock is free, `release` frees it, every other instruction just
runs. -/
def stepThread (s : CState) (t : Bool) : Option CState :=
  match create_prog.get? (pcOf s t).val with
  | some .acquire =>
      match s.lock with
      | none => some (setPc { s with lock := some t } t (bump (pcOf s t)))
      | some _ => none
  | some .release => some { setPc s t (bump (pcOf s t)) with lock := none }
  | some _ => some (setPc s t (bump (pcOf s t)))
  | none => none

/-- All states one scheduler choice away from `s`. -/
def succs (s : CState) : List CState :=
  (stepThread s false).toList ++ (stepThread s true).toList

/-- Both threads at the start, lock free. -/
def initState : CState :=
  ⟨0, 0, none⟩

/-- The states reachable by the scheduler from the initial state. -/
inductive Reach : CState → Prop
  | init : Reach initState
  | step {s s' : CState} : Reach s → s' ∈ succs s → Reach s'

/-- A thread with this program counter is inside the gate-protected
region: it has completed `acquire` and not yet completed `release`. -/
def inLocked (p : Fin 6) : Bool :=
  decide (1 ≤ p.val) && decide (p.val ≤ 3)

/-- A thread with this program counter is mid-query: the store call has
started and not yet returned. -/
def inQuery (p : Fin 6) : Bool :=
  p.val == 2

/-- A thread with this program counter is inside its query/close
sequence: it has issued its query and not yet completed the close. -/
def inQueryClose (p : Fin 6) : Bool :=
  decide (2 ≤ p.val) && decide (p.val ≤ 4)

/-- The lock invariant: a thread is inside the gate-protected region
exactly when it holds the lock. -/
def gateInv (s : CState) : Bool :=
  (inLocked s.pc1 == (s.lock == some false)) &&
    (inLocked s.pc2 == (s.lock == some true))

lemma gateInv_init : gateInv initState = true := by decide

lemma gateInv_step :
    ∀ s : CState, gateInv s = true → ∀ s' ∈ succs s, gateInv s' = true := by
  decide

lemma reach_gateInv {s : CState} (h : Reach s) : gateInv s = true := by
  induction h with
  | init => exact gateInv_init
  | step _ hmem ih => exact gateInv_step _ ih _ hmem

lemma gateInv_mutex :
    ∀ s : CState, gateInv s = true →
      ¬(inLocked s.pc1 = true ∧ inLocked s.pc2 = true) := by
  decide

/-- Claim C9 (amended): in every reachable interleaving of two concurrent
`create` calls, at most one thread is inside the gate-protected region at
any instant — in particular the two store calls (the partial writes) are
never simultaneously in flight, so no two operations' queries ever
interleave.  The claim's stronger phrasing, mutual exclusion of the whole
query/close sequence, fails: see the counterexample. -/
theorem c9_queries_serialized (s : CState) (h : Reach s) :
    ¬(inLocked s.pc1 = true ∧ inLocked s.pc2 = true) ∧
    ¬(inQuery s.pc1 = true ∧ inQuery s.pc2 = true) := by
  have hinv := reach_gateInv h
  have hmutex := gateInv_mutex s hinv
  refine ⟨hmutex, fun hq => hmutex ⟨?_, ?_⟩⟩
  · revert hq
    have : ∀ p : Fin 6, inQuery p = true → inLocked p = true := by decide
    exact fun hq => this s.pc1 hq.1
  · revert hq
    have : ∀ p : Fin 6, inQuery p = true → inLocked p = true := by decide
    exact fun hq => this s.pc2 hq.2

/-- Witness for the amended C9 at the initial state. -/
theorem c9_witness :
    ¬(inLocked initState.pc1 = true ∧ inLocked initState.pc2 = true) :=
  (c9_queries_serialized initState Reach.init).1

/-- Claim C9, counterexample: the state where thread 1 has released the
lock but not yet closed its connection (pc 4) while thread 2 is mid-query
(pc 2, holding the lock) is reachable; both threads are then inside their
query/close sequences at the same instant, so "at any instant at most one
operation is inside its query/close sequence" is false — the gate is
dropped before the close step (compare C1). -/
theorem c9_counterexample :
    Reach ⟨4, 2, some true⟩ ∧
    inQueryClose (4 : Fin 6) = true ∧ inQueryClose (2 : Fin 6) = true := by
  refine ⟨?_, by decide, by decide⟩
  have h1 : Reach ⟨1, 0, some false⟩ := Reach.step Reach.init (by decide)
  have h2 : Reach ⟨2, 0, some false⟩ := Reach.step h1 (by decide)
  have h3 : Reach ⟨3, 0, some false⟩ := Reach.step h2 (by decide)
  have h4 : Reach ⟨4, 0, none⟩ := Reach.step h3 (by decide)
  have h5 : Reach ⟨4, 1, some true⟩ := Reach.step h4 (by decide)
  exact Reach.step h5 (by decide)

end UserManager
